import Mathlib

/-!
# otel-logger-middleware: trace attributes on log records

A shallow embedding of `middleware.go`: the decorator `otelLoggerMiddleware`
around a `slog.Handler`, its `Handle` method and the naming strategy
`namingType.convert`.

The two libraries the package is written against are not part of it.  They
appear here as interface models:

* `log/slog`: `Value`, `Attr`, `Record` with `Record.Add`, and `Handler`;
* `go.opentelemetry.io/otel/trace`: `SpanContext`, `Span`, `SpanFromContext`.

A sink has effects of its own and reports a result.  Both are kept: a handler
over a state type `σ` maps a context, a record and the state before the call to
the reported result and the state after the call.
-/

namespace OtelLogger

/-! ## `log/slog` -/

/-- The value of an attribute (`slog.Value`), by kind.  `OtherValue` carries a
description of a Go value of no other kind. -/
inductive Value where
  | StringValue (s : String)
  | Int64Value (i : Int)
  | Uint64Value (n : Nat)
  | BoolValue (b : Bool)
  | GroupValue (keys : List String)
  | OtherValue (descr : String)
  deriving DecidableEq, Repr

/-- The method `Value.isEmptyGroup`: a group without members. -/
def Value.isEmptyGroup : Value → Bool
  | Value.GroupValue [] => true
  | _ => false

/-- A key-value pair (`slog.Attr`). -/
structure Attr where
  Key : String
  Value : Value
  deriving DecidableEq, Repr

/-- One argument of a variadic `...any` parameter, as `slog` tells them apart:
a string, an `Attr`, or a value of another type (given by the `Value` that
`slog.AnyValue` makes of it). -/
inductive Arg where
  | str (s : String)
  | attr (a : Attr)
  | other (v : Value)
  deriving DecidableEq, Repr

/-- The key `slog` uses for a value that comes without one. -/
def badKey : String := "!BADKEY"

/-- The function `slog.AnyValue` on an argument. -/
def AnyValue : Arg → Value
  | Arg.str s => Value.StringValue s
  | Arg.attr _ => Value.OtherValue "slog.Attr"
  | Arg.other v => v

/-- A log record (`slog.Record`).  `attrs` is the attribute list in the order
`Record.Attrs` visits it. -/
structure Record where
  Time : Int
  Message : String
  Level : Int
  PC : Nat
  attrs : List Attr
  deriving DecidableEq, Repr

/-- The method `Record.NumAttrs`. -/
def Record.NumAttrs (r : Record) : Nat := r.attrs.length

/-- The attributes `Record.Add` makes of its arguments, in order.  Each round
is one `argsToAttr`: a string followed by a value is a pair, a string at the
end gets `badKey` as key and itself as value, an `Attr` stands for itself, any
other value gets `badKey`.  Empty groups are left out. -/
def argsToAttrs : List Arg → List Attr
  | [] => []
  | [Arg.str x] =>
    if (Value.StringValue x).isEmptyGroup then [] else [⟨badKey, Value.StringValue x⟩]
  | Arg.str k :: v :: rest =>
    if (AnyValue v).isEmptyGroup then argsToAttrs rest
    else ⟨k, AnyValue v⟩ :: argsToAttrs rest
  | Arg.attr a :: rest =>
    if a.Value.isEmptyGroup then argsToAttrs rest else a :: argsToAttrs rest
  | Arg.other v :: rest =>
    if v.isEmptyGroup then argsToAttrs rest else ⟨badKey, v⟩ :: argsToAttrs rest

/-- The method `Record.Add`: converts the arguments to attributes and appends
them to the record's list of attributes. -/
def Record.Add (r : Record) (args : List Arg) : Record :=
  { r with attrs := r.attrs ++ argsToAttrs args }

/-- A Go `error` value, by its message. -/
abbrev Error := String

/-! ## `go.opentelemetry.io/otel/trace` and `context` -/

/-- What `middleware.go` reads off a `trace.SpanContext`: the three tests and
the string forms of the three identifiers (`SpanID().String()`,
`TraceID().String()`, `TraceFlags().String()`).  The tracing library decides
them; here they are free. -/
structure SpanContext where
  IsValid : Bool
  HasSpanID : Bool
  HasTraceID : Bool
  SpanID : String
  TraceID : String
  TraceFlags : String
  deriving DecidableEq, Repr

/-- A span (`trace.Span`), of which only `SpanContext()` is used. -/
structure Span where
  SpanContext : SpanContext
  deriving DecidableEq, Repr

/-- The span of the tracing library that stands for "no span": its span
context is the zero value. -/
def noopSpanInstance : Span :=
  ⟨⟨false, false, false, "0000000000000000", "00000000000000000000000000000000", "00"⟩⟩

/-- A `context.Context`: the span it carries, if any, and `rest` for all it
carries besides (deadline, cancellation, other values). -/
structure Context where
  currentSpan : Option Span
  rest : Nat
  deriving DecidableEq, Repr

/-- The function `trace.SpanFromContext`: the span in the context, and the
no-op span when there is none. -/
def SpanFromContext (ctx : Context) : Span :=
  match ctx.currentSpan with
  | some span => span
  | none => noopSpanInstance

/-- One step from a handler to a handler derived from it: a call of
`WithAttrs` or of `WithGroup`. -/
inductive Derivation where
  | WithAttrs (as : List Attr)
  | WithGroup (name : String)
  deriving DecidableEq, Repr

/-- A `slog.Handler` over the state `σ` its effects act on, given by what it
does and what every handler derived from it does: `enabledAt p` and
`handleAt p` are the methods `Enabled` and `Handle` of the handler reached by
the derivation steps `p`, the empty path being the handler itself.  `Handle`
gives the reported result (`none` for a nil error) and the state after the
call. -/
structure Handler (σ : Type) where
  enabledAt : List Derivation → Context → Int → Bool
  handleAt : List Derivation → Context → Record → σ → Option Error × σ

/-- The method `Enabled` of a handler. -/
def Handler.Enabled {σ : Type} (h : Handler σ) : Context → Int → Bool :=
  h.enabledAt []

/-- The method `Handle` of a handler. -/
def Handler.Handle {σ : Type} (h : Handler σ) : Context → Record → σ → Option Error × σ :=
  h.handleAt []

/-- The method `WithAttrs` of a handler. -/
def Handler.WithAttrs {σ : Type} (h : Handler σ) (as : List Attr) : Handler σ :=
  { enabledAt := fun p => h.enabledAt (Derivation.WithAttrs as :: p)
    handleAt := fun p => h.handleAt (Derivation.WithAttrs as :: p) }

/-- The method `WithGroup` of a handler. -/
def Handler.WithGroup {σ : Type} (h : Handler σ) (name : String) : Handler σ :=
  { enabledAt := fun p => h.enabledAt (Derivation.WithGroup name :: p)
    handleAt := fun p => h.handleAt (Derivation.WithGroup name :: p) }

/-- The handler with the four given methods. -/
def Handler.ofMethods {σ : Type} (enabled : Context → Int → Bool)
    (handle : Context → Record → σ → Option Error × σ)
    (withAttrs : List Attr → Handler σ) (withGroup : String → Handler σ) : Handler σ :=
  { enabledAt := fun p =>
      match p with
      | [] => enabled
      | Derivation.WithAttrs as :: q => (withAttrs as).enabledAt q
      | Derivation.WithGroup name :: q => (withGroup name).enabledAt q
    handleAt := fun p =>
      match p with
      | [] => handle
      | Derivation.WithAttrs as :: q => (withAttrs as).handleAt q
      | Derivation.WithGroup name :: q => (withGroup name).handleAt q }

/-- A sink that keeps every context and record it is handed, in the order of
the calls, and reports `result` each time.  Its state is the list of what it
has been handed so far. -/
def recordingHandler (result : Option Error) : Handler (List (Context × Record)) :=
  { enabledAt := fun _ _ _ => true
    handleAt := fun _ ctx record seen => (result, seen ++ [(ctx, record)]) }

/-! ## `middleware.go` -/

/-- The type `namingType` is a Go `int`. -/
abbrev namingType := Int

/-- OpenTelemetry semantic convention, as in "trace.id". -/
def SemConv : namingType := 0

/-- Underscores, as in "trace_id". -/
def SnakeCase : namingType := 1

/-- Second word capitalised, as in "traceId". -/
def CamelCase : namingType := 2

/-- Both words capitalised, as in "TraceId". -/
def PascalCase : namingType := 3

/-- The interface `namingConverter`.  It is unexported and so is its one
method, `convert`; `namingType` is the one type that implements it, so a
converter that is not nil is a `namingType` value. -/
abbrev namingConverter := namingType

/-- The method `namingType.convert`.  The record comes in by pointer: the
result is the record the pointer leads to after the call. -/
def namingType.convert (t : namingType) (span : Span) (record : Record) : Record :=
  let spanId := span.SpanContext.SpanID
  let traceId := span.SpanContext.TraceID
  let traceFlags := span.SpanContext.TraceFlags
  if t = SemConv then
    record.Add [Arg.str "span.id", Arg.str spanId,
                Arg.str "trace.id", Arg.str traceId,
                Arg.str "trace.flags", Arg.str traceFlags]
  else if t = SnakeCase then
    record.Add [Arg.str "span_id", Arg.str spanId,
                Arg.str "trace_id", Arg.str traceId,
                Arg.str "trace_flags", Arg.str traceFlags]
  else if t = CamelCase then
    record.Add [Arg.str "spanId", Arg.str spanId,
                Arg.str "traceId", Arg.str traceId,
                Arg.str "traceFlags", Arg.str traceFlags]
  else if t = PascalCase then
    record.Add [Arg.str "SpanId", Arg.str spanId,
                Arg.str "TraceId", Arg.str traceId,
                Arg.str "TraceFlags", Arg.str traceFlags]
  else record

/-- The struct `otelLoggerMiddleware`: the embedded handler and the
converter. -/
structure otelLoggerMiddleware (σ : Type) where
  Handler : Handler σ
  converter : namingConverter

/-- The method `otelLoggerMiddleware.Handle`.  `record` is a parameter passed
by value: the conversion acts on the method's own copy, and that copy is what
the embedded handler gets. -/
def otelLoggerMiddleware.Handle {σ : Type} (o : otelLoggerMiddleware σ)
    (ctx : Context) (record : Record) : σ → Option Error × σ :=
  let span := SpanFromContext ctx
  let record :=
    if span.SpanContext.IsValid && span.SpanContext.HasSpanID && span.SpanContext.HasTraceID then
      namingType.convert o.converter span record
    else record
  o.Handler.Handle ctx record

/-- The method set of `*otelLoggerMiddleware` as a `slog.Handler`: `Handle` is
its own, `Enabled`, `WithAttrs` and `WithGroup` are those of the embedded
handler. -/
def otelLoggerMiddleware.toHandler {σ : Type} (o : otelLoggerMiddleware σ) :
    OtelLogger.Handler σ :=
  Handler.ofMethods o.Handler.Enabled o.Handle o.Handler.WithAttrs o.Handler.WithGroup

/-- The function `NewOtelLoggerMiddleware`. -/
def NewOtelLoggerMiddleware {σ : Type} (baseHandler : Handler σ)
    (converter : namingConverter) : Handler σ :=
  otelLoggerMiddleware.toHandler { Handler := baseHandler, converter := converter }

/-! ## The specification's key table, a caller, and sample inputs -/

/-- The key table of the specification (section 4.1) with the values filled
in: the pairs for span id, trace id and trace flags, in this order, under each
of the four conventions, and no pair for a value that is none of the four. -/
def traceAttrs (c : namingType) (S T F : String) : List Attr :=
  if c = 0 then
    [⟨"span.id", Value.StringValue S⟩, ⟨"trace.id", Value.StringValue T⟩,
     ⟨"trace.flags", Value.StringValue F⟩]
  else if c = 1 then
    [⟨"span_id", Value.StringValue S⟩, ⟨"trace_id", Value.StringValue T⟩,
     ⟨"trace_flags", Value.StringValue F⟩]
  else if c = 2 then
    [⟨"spanId", Value.StringValue S⟩, ⟨"traceId", Value.StringValue T⟩,
     ⟨"traceFlags", Value.StringValue F⟩]
  else if c = 3 then
    [⟨"SpanId", Value.StringValue S⟩, ⟨"TraceId", Value.StringValue T⟩,
     ⟨"TraceFlags", Value.StringValue F⟩]
  else []

/-- A caller that hands one and the same record to a handler twice, under the
same context: `h.Handle(ctx, record); h.Handle(ctx, record)`.  The results of
the two calls and the state after the second. -/
def handleTwice {σ : Type} (h : Handler σ) (ctx : Context) (record : Record) (s : σ) :
    (Option Error × Option Error) × σ :=
  let first := h.Handle ctx record s
  let second := h.Handle ctx record first.2
  ((first.1, second.1), second.2)

/-- A span context as the tracing library hands it out for a recording,
sampled span. -/
def sampleSpanContext : SpanContext :=
  { IsValid := true, HasSpanID := true, HasTraceID := true,
    SpanID := "00f067aa0ba902b7", TraceID := "4bf92f3577b34da6a3ce929d0e0e4736",
    TraceFlags := "01" }

/-- A context that carries a span with `sampleSpanContext`. -/
def sampleContext : Context := { currentSpan := some ⟨sampleSpanContext⟩, rest := 7 }

/-- A context that carries no span. -/
def backgroundContext : Context := { currentSpan := none, rest := 0 }

/-- A record with one attribute of its own. -/
def sampleRecord : Record :=
  { Time := 1700000000, Message := "run function", Level := 0, PC := 0,
    attrs := [⟨"key", Value.StringValue "value"⟩] }

/-- The sink `h` with a count of the calls of `Handle` kept beside its state:
each call of `Handle`, on the handler or on one derived from it, does what `h`
does and adds one to the count. -/
def countingHandler {σ : Type} (h : Handler σ) : Handler (σ × Nat) :=
  { enabledAt := h.enabledAt
    handleAt := fun p ctx record st =>
      ((h.handleAt p ctx record st.1).1, ((h.handleAt p ctx record st.1).2, st.2 + 1)) }

/-- The tracing library's definition of validity, as a test on a span context:
`IsValid()` is `HasTraceID() && HasSpanID()`, a span context being valid exactly
when its trace id is not zero and its span id is not zero. -/
def SpanContext.validityAsDefined (sc : SpanContext) : Bool :=
  sc.IsValid == (sc.HasTraceID && sc.HasSpanID)

/-- The method `Handle` with the test cut down to `IsValid()` alone, all else
as in `otelLoggerMiddleware.Handle`: the variant the three-part test is
compared with. -/
def otelLoggerMiddleware.HandleIsValidOnly {σ : Type} (o : otelLoggerMiddleware σ)
    (ctx : Context) (record : Record) : σ → Option Error × σ :=
  let span := SpanFromContext ctx
  let record :=
    if span.SpanContext.IsValid then
      namingType.convert o.converter span record
    else record
  o.Handler.Handle ctx record

/-! ## Lemmas on the embedding -/

/-- Six strings handed to `Record.Add` make three pairs, none left out. -/
theorem argsToAttrs_three_pairs (k1 v1 k2 v2 k3 v3 : String) :
    argsToAttrs [Arg.str k1, Arg.str v1, Arg.str k2, Arg.str v2, Arg.str k3, Arg.str v3]
      = [⟨k1, Value.StringValue v1⟩, ⟨k2, Value.StringValue v2⟩, ⟨k3, Value.StringValue v3⟩] := by
  simp [argsToAttrs, AnyValue, Value.isEmptyGroup]

/-- For every value of the convention, `convert` appends what the key table
lists for it. -/
theorem convert_eq_traceAttrs (c : namingType) (span : Span) (record : Record) :
    namingType.convert c span record
      = { record with
          attrs := record.attrs ++ traceAttrs c span.SpanContext.SpanID
            span.SpanContext.TraceID span.SpanContext.TraceFlags } := by
  unfold namingType.convert traceAttrs SemConv SnakeCase CamelCase PascalCase
  by_cases h0 : c = 0
  · simp [h0, Record.Add, argsToAttrs_three_pairs]
  by_cases h1 : c = 1
  · simp [h1, Record.Add, argsToAttrs_three_pairs]
  by_cases h2 : c = 2
  · simp [h2, Record.Add, argsToAttrs_three_pairs]
  by_cases h3 : c = 3
  · simp [h3, Record.Add, argsToAttrs_three_pairs]
  simp [h0, h1, h2, h3]

/-- The key table lists three pairs for each of the four conventions. -/
theorem traceAttrs_length_of_convention (c : namingType)
    (hc : c = SemConv ∨ c = SnakeCase ∨ c = CamelCase ∨ c = PascalCase) (S T F : String) :
    (traceAttrs c S T F).length = 3 := by
  rcases hc with h | h | h | h <;> subst h <;> rfl

/-- The key table lists nothing for a value that is none of the four. -/
theorem traceAttrs_of_not_convention (c : namingType)
    (hc : c ≠ SemConv ∧ c ≠ SnakeCase ∧ c ≠ CamelCase ∧ c ≠ PascalCase) (S T F : String) :
    traceAttrs c S T F = [] := by
  obtain ⟨h0, h1, h2, h3⟩ := hc
  unfold SemConv at h0
  unfold SnakeCase at h1
  unfold CamelCase at h2
  unfold PascalCase at h3
  simp [traceAttrs, h0, h1, h2, h3]

/-- The branch of `Handle` in which the three tests pass. -/
theorem Handle_of_valid {σ : Type} (h : Handler σ) (c : namingType) (ctx : Context)
    (record : Record)
    (hv : (SpanFromContext ctx).SpanContext.IsValid = true)
    (hs : (SpanFromContext ctx).SpanContext.HasSpanID = true)
    (ht : (SpanFromContext ctx).SpanContext.HasTraceID = true) :
    (NewOtelLoggerMiddleware h c).Handle ctx record
      = h.Handle ctx { record with
          attrs := record.attrs ++ traceAttrs c (SpanFromContext ctx).SpanContext.SpanID
            (SpanFromContext ctx).SpanContext.TraceID
            (SpanFromContext ctx).SpanContext.TraceFlags } := by
  show otelLoggerMiddleware.Handle ⟨h, c⟩ ctx record = _
  simp only [otelLoggerMiddleware.Handle, hv, hs, ht, Bool.and_self, if_true,
    convert_eq_traceAttrs]

/-- The branch of `Handle` in which one of the three tests fails. -/
theorem Handle_of_not_valid {σ : Type} (h : Handler σ) (c : namingType) (ctx : Context)
    (record : Record)
    (hn : (SpanFromContext ctx).SpanContext.IsValid = false
      ∨ (SpanFromContext ctx).SpanContext.HasSpanID = false
      ∨ (SpanFromContext ctx).SpanContext.HasTraceID = false) :
    (NewOtelLoggerMiddleware h c).Handle ctx record = h.Handle ctx record := by
  show otelLoggerMiddleware.Handle ⟨h, c⟩ ctx record = _
  rcases hn with hn | hn | hn <;> simp [otelLoggerMiddleware.Handle, hn]

/-- A context without a span gives the no-op span, which is not valid. -/
theorem SpanFromContext_of_no_span (ctx : Context) (h : ctx.currentSpan = none) :
    (SpanFromContext ctx).SpanContext.IsValid = false := by
  simp [SpanFromContext, h, noopSpanInstance]

/-! ## The naming strategy -/

/-- C1: under each of the four conventions `convert` appends to the record
exactly three pairs, span id, trace id, trace flags in this order, with the
keys of the convention and the three strings of the span as values, and leaves
the rest of the record as it was. -/
theorem convert_appends_three_pairs (span : Span) (record : Record) :
    namingType.convert SemConv span record
        = { record with attrs := record.attrs ++
            [⟨"span.id", Value.StringValue span.SpanContext.SpanID⟩,
             ⟨"trace.id", Value.StringValue span.SpanContext.TraceID⟩,
             ⟨"trace.flags", Value.StringValue span.SpanContext.TraceFlags⟩] }
    ∧ namingType.convert SnakeCase span record
        = { record with attrs := record.attrs ++
            [⟨"span_id", Value.StringValue span.SpanContext.SpanID⟩,
             ⟨"trace_id", Value.StringValue span.SpanContext.TraceID⟩,
             ⟨"trace_flags", Value.StringValue span.SpanContext.TraceFlags⟩] }
    ∧ namingType.convert CamelCase span record
        = { record with attrs := record.attrs ++
            [⟨"spanId", Value.StringValue span.SpanContext.SpanID⟩,
             ⟨"traceId", Value.StringValue span.SpanContext.TraceID⟩,
             ⟨"traceFlags", Value.StringValue span.SpanContext.TraceFlags⟩] }
    ∧ namingType.convert PascalCase span record
        = { record with attrs := record.attrs ++
            [⟨"SpanId", Value.StringValue span.SpanContext.SpanID⟩,
             ⟨"TraceId", Value.StringValue span.SpanContext.TraceID⟩,
             ⟨"TraceFlags", Value.StringValue span.SpanContext.TraceFlags⟩] } := by
  refine ⟨?_, ?_, ?_, ?_⟩ <;>
    simp [namingType.convert, SemConv, SnakeCase, CamelCase, PascalCase, Record.Add,
      argsToAttrs_three_pairs]

/-! ## The decorator -/

/-- C2: under each of the four conventions and for every sink, a context whose
span is valid and has span id `S`, trace id `T` and trace flags `F` makes
`Handle` hand the sink the record with the three pairs of the convention,
valued `S`, `T`, `F`, after the attributes it had, and nothing else added. -/
theorem Handle_forwards_enriched_record {σ : Type} (c : namingType)
    (hc : c = SemConv ∨ c = SnakeCase ∨ c = CamelCase ∨ c = PascalCase)
    (h : Handler σ) (ctx : Context) (record : Record) (S T F : String)
    (hv : (SpanFromContext ctx).SpanContext.IsValid = true)
    (hs : (SpanFromContext ctx).SpanContext.HasSpanID = true)
    (ht : (SpanFromContext ctx).SpanContext.HasTraceID = true)
    (hS : (SpanFromContext ctx).SpanContext.SpanID = S)
    (hT : (SpanFromContext ctx).SpanContext.TraceID = T)
    (hF : (SpanFromContext ctx).SpanContext.TraceFlags = F) (s : σ) :
    (NewOtelLoggerMiddleware h c).Handle ctx record s
        = h.Handle ctx { record with attrs := record.attrs ++ traceAttrs c S T F } s
    ∧ (traceAttrs c S T F).map Attr.Value
        = [Value.StringValue S, Value.StringValue T, Value.StringValue F]
    ∧ ({ record with attrs := record.attrs ++ traceAttrs c S T F } : Record).NumAttrs
        = record.NumAttrs + 3 := by
  subst hS hT hF
  refine ⟨by rw [Handle_of_valid h c ctx record hv hs ht], ?_, ?_⟩
  · rcases hc with e | e | e | e <;> subst e <;> rfl
  · simp [Record.NumAttrs, traceAttrs_length_of_convention c hc]

/-- C2 at the scenario of the specification: snake case, span id "abc123",
trace id "def456", trace flags "01". -/
theorem Handle_forwards_enriched_record_witness :
    (NewOtelLoggerMiddleware (recordingHandler none) SnakeCase).Handle
        { currentSpan := some ⟨⟨true, true, true, "abc123", "def456", "01"⟩⟩, rest := 0 }
        sampleRecord []
      = (none,
          [({ currentSpan := some ⟨⟨true, true, true, "abc123", "def456", "01"⟩⟩, rest := 0 },
            { sampleRecord with attrs :=
                [⟨"key", Value.StringValue "value"⟩,
                 ⟨"span_id", Value.StringValue "abc123"⟩,
                 ⟨"trace_id", Value.StringValue "def456"⟩,
                 ⟨"trace_flags", Value.StringValue "01"⟩] })]) :=
  (Handle_forwards_enriched_record SnakeCase (Or.inr (Or.inl rfl)) (recordingHandler none)
    { currentSpan := some ⟨⟨true, true, true, "abc123", "def456", "01"⟩⟩, rest := 0 }
    sampleRecord "abc123" "def456" "01" rfl rfl rfl rfl rfl rfl []).1

/-- C3: under every convention and for every sink, a context that carries no
span, or whose span context is not valid, or has no span id, or has no trace
id, makes `Handle` hand the sink the record it was given: the same attributes
in the same order. -/
theorem Handle_forwards_unmodified_record {σ : Type} (c : namingType) (h : Handler σ)
    (ctx : Context) (record : Record) (s : σ)
    (hn : ctx.currentSpan = none
      ∨ (SpanFromContext ctx).SpanContext.IsValid = false
      ∨ (SpanFromContext ctx).SpanContext.HasSpanID = false
      ∨ (SpanFromContext ctx).SpanContext.HasTraceID = false) :
    (NewOtelLoggerMiddleware h c).Handle ctx record s = h.Handle ctx record s := by
  have hn2 : (SpanFromContext ctx).SpanContext.IsValid = false
      ∨ (SpanFromContext ctx).SpanContext.HasSpanID = false
      ∨ (SpanFromContext ctx).SpanContext.HasTraceID = false := by
    rcases hn with e | e | e | e
    · exact Or.inl (SpanFromContext_of_no_span ctx e)
    · exact Or.inl e
    · exact Or.inr (Or.inl e)
    · exact Or.inr (Or.inr e)
  rw [Handle_of_not_valid h c ctx record hn2]

/-- C3 at a context without a span: the recording sink is handed the sample
record as it is. -/
theorem Handle_forwards_unmodified_record_witness :
    backgroundContext.currentSpan = none
    ∧ (NewOtelLoggerMiddleware (recordingHandler none) CamelCase).Handle
          backgroundContext sampleRecord []
        = (none, [(backgroundContext, sampleRecord)]) :=
  ⟨rfl, Handle_forwards_unmodified_record CamelCase (recordingHandler none)
    backgroundContext sampleRecord [] (Or.inl rfl)⟩

/-- C4: for every value of the convention, every context and record there is
one forwarded record such that, whatever the sink and its state, `Handle` of
the decorator gives what the sink gives for that record: the same result, nil
or error, and the same effect.  So whatever result a sink reports is the result
of the decorator. -/
theorem Handle_returns_sink_result (c : namingType) (ctx : Context) (record : Record) :
    (∃ forwarded : Record, ∀ (σ : Type) (h : Handler σ) (s : σ),
        (NewOtelLoggerMiddleware h c).Handle ctx record s = h.Handle ctx forwarded s)
    ∧ ∀ (result : Option Error) (seen : List (Context × Record)),
        ((NewOtelLoggerMiddleware (recordingHandler result) c).Handle ctx record seen).1
          = result := by
  constructor
  · by_cases hv : (SpanFromContext ctx).SpanContext.IsValid = true
        ∧ (SpanFromContext ctx).SpanContext.HasSpanID = true
        ∧ (SpanFromContext ctx).SpanContext.HasTraceID = true
    · exact ⟨_, fun σ h s => by rw [Handle_of_valid h c ctx record hv.1 hv.2.1 hv.2.2]⟩
    · refine ⟨record, fun σ h s => ?_⟩
      have hn : (SpanFromContext ctx).SpanContext.IsValid = false
          ∨ (SpanFromContext ctx).SpanContext.HasSpanID = false
          ∨ (SpanFromContext ctx).SpanContext.HasTraceID = false := by
        by_contra hcon
        simp only [not_or, Bool.not_eq_false] at hcon
        exact hv hcon
      rw [Handle_of_not_valid h c ctx record hn]
  · intro result seen
    show (otelLoggerMiddleware.Handle ⟨recordingHandler result, c⟩ ctx record seen).1 = result
    rfl

/-- C5 as stated fails at the value 4 of the convention, which is none of the
four: the sample context is valid with span id and trace id, and yet the sink is
handed the sample record as it is, not the record with three attributes
more. -/
theorem injection_all_or_nothing_counterexample :
    (SpanFromContext sampleContext).SpanContext.IsValid = true
    ∧ (SpanFromContext sampleContext).SpanContext.HasSpanID = true
    ∧ (SpanFromContext sampleContext).SpanContext.HasTraceID = true
    ∧ ((NewOtelLoggerMiddleware (recordingHandler none) 4).Handle
          sampleContext sampleRecord []).2 = [(sampleContext, sampleRecord)]
    ∧ ¬ ∃ a1 a2 a3 : Attr,
        ((NewOtelLoggerMiddleware (recordingHandler none) 4).Handle
            sampleContext sampleRecord []).2
          = [(sampleContext,
              { sampleRecord with attrs := sampleRecord.attrs ++ [a1, a2, a3] })] := by
  refine ⟨rfl, rfl, rfl, rfl, ?_⟩
  rintro ⟨a1, a2, a3, e⟩
  have e2 : [(sampleContext, sampleRecord)]
      = [(sampleContext,
          { sampleRecord with attrs := sampleRecord.attrs ++ [a1, a2, a3] })] := e
  have e3 := congrArg (fun l => l.map (fun x => x.2.attrs.length)) e2
  simp [sampleRecord] at e3

/-- C5, amended: for every value of the convention, every context and every
record, the attributes the decorator adds to the record it forwards are none or
three, never one or two: none when the context has no span or its span context
fails one of the three tests, the three pairs of the convention when the span
context passes them and the value is one of the four, none when the value is none
of the four. -/
theorem injection_none_or_three (c : namingType) (ctx : Context) (record : Record) :
    ∃ added : List Attr,
      (∀ (σ : Type) (h : Handler σ) (s : σ),
          (NewOtelLoggerMiddleware h c).Handle ctx record s
            = h.Handle ctx { record with attrs := record.attrs ++ added } s)
      ∧ (added.length = 0 ∨ added.length = 3)
      ∧ added.length ≠ 1 ∧ added.length ≠ 2
      ∧ ((ctx.currentSpan = none
            ∨ (SpanFromContext ctx).SpanContext.IsValid = false
            ∨ (SpanFromContext ctx).SpanContext.HasSpanID = false
            ∨ (SpanFromContext ctx).SpanContext.HasTraceID = false) → added = [])
      ∧ ((SpanFromContext ctx).SpanContext.IsValid = true
            ∧ (SpanFromContext ctx).SpanContext.HasSpanID = true
            ∧ (SpanFromContext ctx).SpanContext.HasTraceID = true
            ∧ (c = SemConv ∨ c = SnakeCase ∨ c = CamelCase ∨ c = PascalCase) →
          added.length = 3
          ∧ added = traceAttrs c (SpanFromContext ctx).SpanContext.SpanID
              (SpanFromContext ctx).SpanContext.TraceID
              (SpanFromContext ctx).SpanContext.TraceFlags)
      ∧ (c ≠ SemConv ∧ c ≠ SnakeCase ∧ c ≠ CamelCase ∧ c ≠ PascalCase → added = []) := by
  by_cases hv : (SpanFromContext ctx).SpanContext.IsValid = true
      ∧ (SpanFromContext ctx).SpanContext.HasSpanID = true
      ∧ (SpanFromContext ctx).SpanContext.HasTraceID = true
  · obtain ⟨h1, h2, h3⟩ := hv
    have hspan : ctx.currentSpan ≠ none := by
      intro e
      have := SpanFromContext_of_no_span ctx e
      simp [h1] at this
    by_cases hc : c = SemConv ∨ c = SnakeCase ∨ c = CamelCase ∨ c = PascalCase
    · have hl := traceAttrs_length_of_convention c hc (SpanFromContext ctx).SpanContext.SpanID
        (SpanFromContext ctx).SpanContext.TraceID (SpanFromContext ctx).SpanContext.TraceFlags
      refine ⟨_, fun σ h s => by rw [Handle_of_valid h c ctx record h1 h2 h3], Or.inr hl,
        by omega, by omega, ?_, fun _ => ⟨hl, rfl⟩, ?_⟩
      · rintro (e | e | e | e)
        · exact absurd e hspan
        · simp [h1] at e
        · simp [h2] at e
        · simp [h3] at e
      · rintro ⟨n0, n1, n2, n3⟩
        rcases hc with e | e | e | e
        · exact absurd e n0
        · exact absurd e n1
        · exact absurd e n2
        · exact absurd e n3
    · have hc2 : c ≠ SemConv ∧ c ≠ SnakeCase ∧ c ≠ CamelCase ∧ c ≠ PascalCase := by
        simp only [not_or] at hc
        exact hc
      have hl := traceAttrs_of_not_convention c hc2 (SpanFromContext ctx).SpanContext.SpanID
        (SpanFromContext ctx).SpanContext.TraceID (SpanFromContext ctx).SpanContext.TraceFlags
      refine ⟨[], fun σ h s => ?_, Or.inl rfl, by simp, by simp, fun _ => rfl, ?_, fun _ => rfl⟩
      · rw [Handle_of_valid h c ctx record h1 h2 h3, hl]
      · rintro ⟨_, _, _, e⟩
        exact absurd e hc
  · have hn : (SpanFromContext ctx).SpanContext.IsValid = false
        ∨ (SpanFromContext ctx).SpanContext.HasSpanID = false
        ∨ (SpanFromContext ctx).SpanContext.HasTraceID = false := by
      by_contra hcon
      simp only [not_or, Bool.not_eq_false] at hcon
      exact hv hcon
    refine ⟨[], fun σ h s => ?_, Or.inl rfl, by simp, by simp, fun _ => rfl, ?_, fun _ => rfl⟩
    · rw [Handle_of_not_valid h c ctx record hn]
      simp
    · rintro ⟨e1, e2, e3, _⟩
      exact absurd ⟨e1, e2, e3⟩ hv

/-- C5, amended, at the sample record under the semantic convention: three
pairs added under the sample context, none under a context without a span. -/
theorem injection_none_or_three_witness :
    (NewOtelLoggerMiddleware (recordingHandler none) SemConv).Handle
          sampleContext sampleRecord []
        = (none,
            [(sampleContext,
              { sampleRecord with
                attrs :=
                  [⟨"key", Value.StringValue "value"⟩,
                   ⟨"span.id", Value.StringValue "00f067aa0ba902b7"⟩,
                   ⟨"trace.id", Value.StringValue "4bf92f3577b34da6a3ce929d0e0e4736"⟩,
                   ⟨"trace.flags", Value.StringValue "01"⟩] })])
    ∧ (NewOtelLoggerMiddleware (recordingHandler none) SemConv).Handle
          backgroundContext sampleRecord []
        = (none, [(backgroundContext, sampleRecord)]) := by
  constructor
  · obtain ⟨added, hH, _, _, _, _, hval, _⟩ :=
      injection_none_or_three SemConv sampleContext sampleRecord
    have e := (hval ⟨rfl, rfl, rfl, Or.inl rfl⟩).2
    rw [hH _ (recordingHandler none) [], e]
    rfl
  · obtain ⟨added, hH, _, _, _, hinv, _, _⟩ :=
      injection_none_or_three SemConv backgroundContext sampleRecord
    have e := hinv (Or.inl rfl)
    rw [hH _ (recordingHandler none) [], e]
    rfl

/-- C6 as stated fails: `Handle` takes the record by value, so a caller that
hands the same record over twice has an unchanged record for the second call.
With the sample record, of one attribute, under the sample context, the sink
is handed a record of four attributes both times, the three trace attributes
once, and not a record of seven attributes the second time. -/
theorem Handle_twice_counterexample :
    (handleTwice (NewOtelLoggerMiddleware (recordingHandler none) SemConv)
        sampleContext sampleRecord []).2
      = [(sampleContext,
          { sampleRecord with attrs :=
              [⟨"key", Value.StringValue "value"⟩,
               ⟨"span.id", Value.StringValue "00f067aa0ba902b7"⟩,
               ⟨"trace.id", Value.StringValue "4bf92f3577b34da6a3ce929d0e0e4736"⟩,
               ⟨"trace.flags", Value.StringValue "01"⟩] }),
         (sampleContext,
          { sampleRecord with attrs :=
              [⟨"key", Value.StringValue "value"⟩,
               ⟨"span.id", Value.StringValue "00f067aa0ba902b7"⟩,
               ⟨"trace.id", Value.StringValue "4bf92f3577b34da6a3ce929d0e0e4736"⟩,
               ⟨"trace.flags", Value.StringValue "01"⟩] })]
    ∧ (handleTwice (NewOtelLoggerMiddleware (recordingHandler none) SemConv)
        sampleContext sampleRecord []).2.map (fun call => call.2.NumAttrs)
      ≠ [sampleRecord.NumAttrs + 3, sampleRecord.NumAttrs + 6] := by
  refine ⟨rfl, ?_⟩
  intro e
  have e2 : [4, 4] = [sampleRecord.NumAttrs + 3, sampleRecord.NumAttrs + 6] := e
  simp [sampleRecord, Record.NumAttrs] at e2

/-- C6, amended: under a valid context and one of the four conventions, a
caller that hands the same record to the decorator twice makes the sink see,
on each of the two calls, the record with the three trace attributes appended
once; and there is no deduplication: a record that carries the three trace
attributes already, such as the one forwarded by a first call, is forwarded
with the three appended once more, so with the three two times. -/
theorem Handle_twice_appends_once_per_call {σ : Type} (c : namingType)
    (hc : c = SemConv ∨ c = SnakeCase ∨ c = CamelCase ∨ c = PascalCase)
    (h : Handler σ) (ctx : Context) (record : Record) (s : σ)
    (hv : (SpanFromContext ctx).SpanContext.IsValid = true)
    (hs : (SpanFromContext ctx).SpanContext.HasSpanID = true)
    (ht : (SpanFromContext ctx).SpanContext.HasTraceID = true) :
    handleTwice (NewOtelLoggerMiddleware h c) ctx record s
        = handleTwice h ctx
            { record with
              attrs := record.attrs ++
                traceAttrs c (SpanFromContext ctx).SpanContext.SpanID
                  (SpanFromContext ctx).SpanContext.TraceID
                  (SpanFromContext ctx).SpanContext.TraceFlags } s
    ∧ (NewOtelLoggerMiddleware h c).Handle ctx
          { record with
            attrs := record.attrs ++
              traceAttrs c (SpanFromContext ctx).SpanContext.SpanID
                (SpanFromContext ctx).SpanContext.TraceID
                (SpanFromContext ctx).SpanContext.TraceFlags } s
        = h.Handle ctx
            { record with
              attrs := record.attrs ++
                (traceAttrs c (SpanFromContext ctx).SpanContext.SpanID
                    (SpanFromContext ctx).SpanContext.TraceID
                    (SpanFromContext ctx).SpanContext.TraceFlags
                  ++ traceAttrs c (SpanFromContext ctx).SpanContext.SpanID
                    (SpanFromContext ctx).SpanContext.TraceID
                    (SpanFromContext ctx).SpanContext.TraceFlags) } s
    ∧ (traceAttrs c (SpanFromContext ctx).SpanContext.SpanID
          (SpanFromContext ctx).SpanContext.TraceID
          (SpanFromContext ctx).SpanContext.TraceFlags).length = 3 := by
  refine ⟨?_, ?_, traceAttrs_length_of_convention c hc _ _ _⟩
  · simp only [handleTwice, Handle_of_valid h c ctx record hv hs ht]
  · rw [Handle_of_valid h c ctx _ hv hs ht]
    simp

/-- C6, amended, at the sample context and record under the semantic
convention. -/
theorem Handle_twice_appends_once_per_call_witness :
    (SpanFromContext sampleContext).SpanContext.IsValid = true
    ∧ (handleTwice (NewOtelLoggerMiddleware (recordingHandler none) SemConv)
          sampleContext sampleRecord []).2.map (fun call => call.2.NumAttrs) = [4, 4]
    ∧ ((NewOtelLoggerMiddleware (recordingHandler none) SemConv).Handle sampleContext
          { sampleRecord with
            attrs := sampleRecord.attrs ++
              traceAttrs SemConv "00f067aa0ba902b7" "4bf92f3577b34da6a3ce929d0e0e4736"
                "01" } []).2.map (fun call => call.2.NumAttrs) = [7] :=
  ⟨rfl,
   congrArg (fun r => r.2.map (fun call => call.2.NumAttrs))
    (Handle_twice_appends_once_per_call SemConv (Or.inl rfl) (recordingHandler none)
      sampleContext sampleRecord [] rfl rfl rfl).1,
   congrArg (fun r => r.2.map (fun call => call.2.NumAttrs))
    (Handle_twice_appends_once_per_call SemConv (Or.inl rfl) (recordingHandler none)
      sampleContext sampleRecord [] rfl rfl rfl).2.1⟩

/-- C7: for a value of the convention outside 0..3, `convert` gives back the
record it was given, for every span, and `Handle` hands the sink the record it
was given, for every context, a valid one included. -/
theorem convert_outside_conventions_adds_nothing {σ : Type} (c : namingType)
    (hc : c < 0 ∨ 3 < c) (span : Span) (h : Handler σ) (ctx : Context)
    (record : Record) (s : σ) :
    namingType.convert c span record = record
    ∧ (namingType.convert c span record).NumAttrs = record.NumAttrs
    ∧ (NewOtelLoggerMiddleware h c).Handle ctx record s = h.Handle ctx record s := by
  have hne : c ≠ SemConv ∧ c ≠ SnakeCase ∧ c ≠ CamelCase ∧ c ≠ PascalCase := by
    have key : ∀ x : Int, x < 0 ∨ 3 < x → x ≠ 0 ∧ x ≠ 1 ∧ x ≠ 2 ∧ x ≠ 3 := by
      intro x hx
      omega
    exact key c hc
  have hconv : ∀ sp : Span, namingType.convert c sp record = record := by
    intro sp
    rw [convert_eq_traceAttrs, traceAttrs_of_not_convention c hne]
    simp
  refine ⟨hconv span, by rw [hconv span], ?_⟩
  show otelLoggerMiddleware.Handle ⟨h, c⟩ ctx record s = _
  unfold otelLoggerMiddleware.Handle
  simp only [hconv, ite_self]

/-- C7 at the value 4 under the sample context, which is valid. -/
theorem convert_outside_conventions_adds_nothing_witness :
    ((3 : namingType) < 4)
    ∧ (SpanFromContext sampleContext).SpanContext.IsValid = true
    ∧ namingType.convert 4 ⟨sampleSpanContext⟩ sampleRecord = sampleRecord
    ∧ (NewOtelLoggerMiddleware (recordingHandler none) 4).Handle
          sampleContext sampleRecord []
        = (none, [(sampleContext, sampleRecord)]) :=
  ⟨by decide, rfl,
   (convert_outside_conventions_adds_nothing 4 (Or.inr (by decide)) ⟨sampleSpanContext⟩
      (recordingHandler none) sampleContext sampleRecord []).1,
   (convert_outside_conventions_adds_nothing 4 (Or.inr (by decide)) ⟨sampleSpanContext⟩
      (recordingHandler none) sampleContext sampleRecord []).2.2⟩

/-- C8: the convention decides the keys only.  For every span and record and
every two of the four conventions, the values of the pairs `convert` appends
are the same under both: the span id, the trace id and the trace flags of the
span, in this order. -/
theorem convert_values_independent_of_convention (c1 c2 : namingType)
    (h1 : c1 = SemConv ∨ c1 = SnakeCase ∨ c1 = CamelCase ∨ c1 = PascalCase)
    (h2 : c2 = SemConv ∨ c2 = SnakeCase ∨ c2 = CamelCase ∨ c2 = PascalCase)
    (span : Span) (record : Record) :
    ((namingType.convert c1 span record).attrs.drop record.attrs.length).map Attr.Value
        = ((namingType.convert c2 span record).attrs.drop record.attrs.length).map Attr.Value
    ∧ ((namingType.convert c1 span record).attrs.drop record.attrs.length).map Attr.Value
        = [Value.StringValue span.SpanContext.SpanID,
           Value.StringValue span.SpanContext.TraceID,
           Value.StringValue span.SpanContext.TraceFlags] := by
  have key : ∀ c : namingType,
      (c = SemConv ∨ c = SnakeCase ∨ c = CamelCase ∨ c = PascalCase) →
      ((namingType.convert c span record).attrs.drop record.attrs.length).map Attr.Value
        = [Value.StringValue span.SpanContext.SpanID,
           Value.StringValue span.SpanContext.TraceID,
           Value.StringValue span.SpanContext.TraceFlags] := by
    intro c hc
    rw [convert_eq_traceAttrs]
    simp only [List.drop_left]
    rcases hc with e | e | e | e <;> subst e <;> rfl
  exact ⟨(key c1 h1).trans (key c2 h2).symm, key c1 h1⟩

/-- C8 at the semantic convention against Pascal case, on the sample span and
record. -/
theorem convert_values_independent_of_convention_witness :
    ((namingType.convert SemConv ⟨sampleSpanContext⟩ sampleRecord).attrs.drop 1).map Attr.Value
        = ((namingType.convert PascalCase ⟨sampleSpanContext⟩ sampleRecord).attrs.drop 1).map
            Attr.Value
    ∧ (namingType.convert SemConv ⟨sampleSpanContext⟩ sampleRecord).attrs.map Attr.Key
        ≠ (namingType.convert PascalCase ⟨sampleSpanContext⟩ sampleRecord).attrs.map Attr.Key :=
  ⟨(convert_values_independent_of_convention SemConv PascalCase (Or.inl rfl)
      (Or.inr (Or.inr (Or.inr rfl))) ⟨sampleSpanContext⟩ sampleRecord).1, by decide⟩

/-- C9 as stated fails at the value 4 of the convention, which is none of the
four: the sample context is valid with span id and trace id and has the trace
flags "01", and yet the sink is handed the sample record as it is; the record
it is handed does not end in a pair with the value "01", so no trace-flags
attribute was appended. -/
theorem trace_flags_appended_counterexample :
    (SpanFromContext sampleContext).SpanContext.IsValid = true
    ∧ (SpanFromContext sampleContext).SpanContext.HasSpanID = true
    ∧ (SpanFromContext sampleContext).SpanContext.HasTraceID = true
    ∧ (SpanFromContext sampleContext).SpanContext.TraceFlags = "01"
    ∧ ((NewOtelLoggerMiddleware (recordingHandler none) 4).Handle
          sampleContext sampleRecord []).2 = [(sampleContext, sampleRecord)]
    ∧ ¬ ∃ (before : List Attr) (key : String),
        ((NewOtelLoggerMiddleware (recordingHandler none) 4).Handle
            sampleContext sampleRecord []).2
          = [(sampleContext,
              { sampleRecord with attrs := before ++ [⟨key, Value.StringValue "01"⟩] })] := by
  refine ⟨rfl, rfl, rfl, rfl, rfl, ?_⟩
  rintro ⟨before, key, e⟩
  have e2 : [(sampleContext, sampleRecord)]
      = [(sampleContext,
          { sampleRecord with attrs := before ++ [⟨key, Value.StringValue "01"⟩] })] := e
  have e3 := congrArg
    (fun l => l.map (fun x => x.2.attrs.getLast?.map Attr.Value)) e2
  simp [sampleRecord] at e3

/-- C9, amended: the trace flags have no part in the decision to enrich.  Take
any convention value, any span context and any record, and let the trace flags
string of the span context vary: what `Handle` adds to the forwarded record is
a function of that string whose length does not depend on it, so two spans
that differ in the trace flags only are both enriched or both not; when the
span context passes the three tests and the value is one of the four
conventions, what is added ends in the trace-flags pair of the convention with
exactly that string as value, whatever the string, "00" of the zero flags
included; and when the value is none of the four, nothing is added, whatever
the string. -/
theorem enrichment_independent_of_trace_flags (c : namingType) (sc : SpanContext)
    (rest : Nat) (record : Record) :
    ∃ added : String → List Attr,
      (∀ (F : String) (σ : Type) (h : Handler σ) (s : σ),
          (NewOtelLoggerMiddleware h c).Handle
              { currentSpan := some ⟨{ sc with TraceFlags := F }⟩, rest := rest } record s
            = h.Handle { currentSpan := some ⟨{ sc with TraceFlags := F }⟩, rest := rest }
                { record with attrs := record.attrs ++ added F } s)
      ∧ (∀ F1 F2 : String, (added F1).length = (added F2).length)
      ∧ (sc.IsValid = true ∧ sc.HasSpanID = true ∧ sc.HasTraceID = true
            ∧ (c = SemConv ∨ c = SnakeCase ∨ c = CamelCase ∨ c = PascalCase) →
          ∀ F : String,
            added F = traceAttrs c sc.SpanID sc.TraceID F
            ∧ (added F).length = 3
            ∧ ((added F).drop 2).map Attr.Value = [Value.StringValue F]
            ∧ (added "00").drop 2 = (traceAttrs c sc.SpanID sc.TraceID "00").drop 2)
      ∧ (c ≠ SemConv ∧ c ≠ SnakeCase ∧ c ≠ CamelCase ∧ c ≠ PascalCase →
          ∀ F : String, added F = []) := by
  by_cases hv : sc.IsValid = true ∧ sc.HasSpanID = true ∧ sc.HasTraceID = true
  · obtain ⟨v1, v2, v3⟩ := hv
    refine ⟨fun F => traceAttrs c sc.SpanID sc.TraceID F, ?_, ?_, ?_,
      fun hne F => traceAttrs_of_not_convention c hne _ _ _⟩
    · intro F σ h s
      rw [Handle_of_valid h c _ record (by simpa [SpanFromContext] using v1)
        (by simpa [SpanFromContext] using v2) (by simpa [SpanFromContext] using v3)]
      rfl
    · intro F1 F2
      show (traceAttrs c sc.SpanID sc.TraceID F1).length
        = (traceAttrs c sc.SpanID sc.TraceID F2).length
      by_cases hc : c = SemConv ∨ c = SnakeCase ∨ c = CamelCase ∨ c = PascalCase
      · rw [traceAttrs_length_of_convention c hc, traceAttrs_length_of_convention c hc]
      · simp only [not_or] at hc
        rw [traceAttrs_of_not_convention c hc, traceAttrs_of_not_convention c hc]
    · rintro ⟨_, _, _, hc⟩ F
      refine ⟨rfl, traceAttrs_length_of_convention c hc _ _ _, ?_, rfl⟩
      rcases hc with e | e | e | e <;> subst e <;> rfl
  · refine ⟨fun _ => [], ?_, fun _ _ => rfl, ?_, fun _ _ => rfl⟩
    · intro F σ h s
      have hn : sc.IsValid = false ∨ sc.HasSpanID = false ∨ sc.HasTraceID = false := by
        by_contra hcon
        simp only [not_or, Bool.not_eq_false] at hcon
        exact hv hcon
      rw [Handle_of_not_valid h c _ record (by simpa [SpanFromContext] using hn)]
      simp
    · rintro ⟨e1, e2, e3, _⟩
      exact absurd ⟨e1, e2, e3⟩ hv

/-- C9, amended, at the sample span context with the zero trace flags, "00",
under snake case: the pair `trace_flags` is appended with the value "00". -/
theorem enrichment_independent_of_trace_flags_witness :
    (NewOtelLoggerMiddleware (recordingHandler none) SnakeCase).Handle
          { currentSpan := some ⟨{ sampleSpanContext with TraceFlags := "00" }⟩, rest := 7 }
          sampleRecord []
        = (none,
            [({ currentSpan := some ⟨{ sampleSpanContext with TraceFlags := "00" }⟩,
                rest := 7 },
              { sampleRecord with
                attrs :=
                  [⟨"key", Value.StringValue "value"⟩,
                   ⟨"span_id", Value.StringValue "00f067aa0ba902b7"⟩,
                   ⟨"trace_id", Value.StringValue "4bf92f3577b34da6a3ce929d0e0e4736"⟩,
                   ⟨"trace_flags", Value.StringValue "00"⟩] })]) := by
  obtain ⟨added, hH, _, hval, _⟩ :=
    enrichment_independent_of_trace_flags SnakeCase sampleSpanContext 7 sampleRecord
  have e := (hval ⟨rfl, rfl, rfl, Or.inr (Or.inl rfl)⟩ "00").1
  rw [hH "00" _ (recordingHandler none) [], e]
  rfl

/-- C10: under a valid context and one of the four conventions, for every sink
and every record, the sink is called with the context the decorator was called
with and with the record whose attribute list is the one it had followed by the
three trace attributes: every attribute it had is at its place with its value,
and time, message, level and program counter are as they were.  The decorator
does nothing after the call: its result and effect are those of the call. -/
theorem Handle_appends_then_delegates {σ : Type} (c : namingType)
    (hc : c = SemConv ∨ c = SnakeCase ∨ c = CamelCase ∨ c = PascalCase)
    (h : Handler σ) (ctx : Context) (record : Record) (s : σ)
    (hv : (SpanFromContext ctx).SpanContext.IsValid = true)
    (hs : (SpanFromContext ctx).SpanContext.HasSpanID = true)
    (ht : (SpanFromContext ctx).SpanContext.HasTraceID = true) :
    ∃ forwarded : Record,
      (NewOtelLoggerMiddleware h c).Handle ctx record s = h.Handle ctx forwarded s
      ∧ (∀ (result : Option Error) (seen : List (Context × Record)),
          (NewOtelLoggerMiddleware (recordingHandler result) c).Handle ctx record seen
            = (result, seen ++ [(ctx, forwarded)]))
      ∧ forwarded.attrs
          = record.attrs ++ traceAttrs c (SpanFromContext ctx).SpanContext.SpanID
              (SpanFromContext ctx).SpanContext.TraceID
              (SpanFromContext ctx).SpanContext.TraceFlags
      ∧ forwarded.attrs.length = record.attrs.length + 3
      ∧ forwarded.attrs.take record.attrs.length = record.attrs
      ∧ (∀ i : Nat, i < record.attrs.length → forwarded.attrs.get? i = record.attrs.get? i)
      ∧ forwarded.Time = record.Time
      ∧ forwarded.Message = record.Message
      ∧ forwarded.Level = record.Level
      ∧ forwarded.PC = record.PC := by
  refine ⟨{ record with
            attrs := record.attrs ++ traceAttrs c (SpanFromContext ctx).SpanContext.SpanID
              (SpanFromContext ctx).SpanContext.TraceID
              (SpanFromContext ctx).SpanContext.TraceFlags },
    by rw [Handle_of_valid h c ctx record hv hs ht], ?_, rfl, ?_, ?_, ?_, rfl, rfl, rfl, rfl⟩
  · intro result seen
    rw [Handle_of_valid (recordingHandler result) c ctx record hv hs ht]
    rfl
  · simp [traceAttrs_length_of_convention c hc]
  · simp
  · intro i hi
    simp [List.getElem?_append_left hi]

/-- C10 at the sample context and record under Pascal case: the recording sink
is handed the sample context and the sample record with the three pairs after
the attribute it had. -/
theorem Handle_appends_then_delegates_witness :
    (SpanFromContext sampleContext).SpanContext.IsValid = true
    ∧ (NewOtelLoggerMiddleware (recordingHandler (some "disk full")) PascalCase).Handle
          sampleContext sampleRecord []
        = (some "disk full",
            [(sampleContext,
              { Time := 1700000000, Message := "run function", Level := 0, PC := 0,
                attrs :=
                  [⟨"key", Value.StringValue "value"⟩,
                   ⟨"SpanId", Value.StringValue "00f067aa0ba902b7"⟩,
                   ⟨"TraceId", Value.StringValue "4bf92f3577b34da6a3ce929d0e0e4736"⟩,
                   ⟨"TraceFlags", Value.StringValue "01"⟩] })]) := by
  obtain ⟨forwarded, _, hrec, hattrs, _, _, _, ht, hm, hl, hp⟩ :=
    Handle_appends_then_delegates PascalCase (Or.inr (Or.inr (Or.inr rfl)))
      (recordingHandler (some "disk full")) sampleContext sampleRecord [] rfl rfl rfl
  refine ⟨rfl, ?_⟩
  rw [hrec (some "disk full") []]
  cases forwarded
  simp only at hattrs ht hm hl hp
  subst hattrs ht hm hl hp
  rfl

/-- C11: one call of `Handle` on the decorator is exactly one call of `Handle`
on the wrapped sink, whatever the convention value, the context, the record and
what the sink reports: the count of calls kept beside any sink goes up by one,
the result and the state are those of that one call, and a sink that keeps what
it is handed has one entry more, after a failure as after a success. -/
theorem Handle_calls_sink_exactly_once (c : namingType) (ctx : Context) (record : Record) :
    ∃ forwarded : Record,
      (∀ (σ : Type) (h : Handler σ) (s : σ) (n : Nat),
          (NewOtelLoggerMiddleware (countingHandler h) c).Handle ctx record (s, n)
            = ((h.Handle ctx forwarded s).1, ((h.Handle ctx forwarded s).2, n + 1)))
      ∧ (∀ (result : Option Error) (seen : List (Context × Record)),
          (NewOtelLoggerMiddleware (recordingHandler result) c).Handle ctx record seen
            = (result, seen ++ [(ctx, forwarded)]))
      ∧ (∀ (result : Option Error) (seen : List (Context × Record)),
          ((NewOtelLoggerMiddleware (recordingHandler result) c).Handle
              ctx record seen).2.length = seen.length + 1) := by
  by_cases hv : (SpanFromContext ctx).SpanContext.IsValid = true
      ∧ (SpanFromContext ctx).SpanContext.HasSpanID = true
      ∧ (SpanFromContext ctx).SpanContext.HasTraceID = true
  · obtain ⟨h1, h2, h3⟩ := hv
    refine ⟨{ record with
              attrs := record.attrs ++ traceAttrs c (SpanFromContext ctx).SpanContext.SpanID
                (SpanFromContext ctx).SpanContext.TraceID
                (SpanFromContext ctx).SpanContext.TraceFlags },
      fun σ h s n => ?_, fun result seen => ?_, fun result seen => ?_⟩
    · rw [Handle_of_valid (countingHandler h) c ctx record h1 h2 h3]
      rfl
    · rw [Handle_of_valid (recordingHandler result) c ctx record h1 h2 h3]
      rfl
    · rw [Handle_of_valid (recordingHandler result) c ctx record h1 h2 h3]
      show (seen ++ [_]).length = seen.length + 1
      simp
  · have hn : (SpanFromContext ctx).SpanContext.IsValid = false
        ∨ (SpanFromContext ctx).SpanContext.HasSpanID = false
        ∨ (SpanFromContext ctx).SpanContext.HasTraceID = false := by
      by_contra hcon
      simp only [not_or, Bool.not_eq_false] at hcon
      exact hv hcon
    refine ⟨record, fun σ h s n => ?_, fun result seen => ?_, fun result seen => ?_⟩
    · rw [Handle_of_not_valid (countingHandler h) c ctx record hn]
      rfl
    · rw [Handle_of_not_valid (recordingHandler result) c ctx record hn]
      rfl
    · rw [Handle_of_not_valid (recordingHandler result) c ctx record hn]
      show (seen ++ [_]).length = seen.length + 1
      simp

/-- C11 at a sink that fails: under the sample context the failing sink is
called once, the count goes from 0 to 1, and the failure comes back. -/
theorem Handle_calls_sink_exactly_once_witness :
    (NewOtelLoggerMiddleware (countingHandler (recordingHandler (some "disk full")))
          SemConv).Handle sampleContext sampleRecord ([], 0)
      = (some "disk full",
          ([(sampleContext,
              { sampleRecord with
                attrs :=
                  [⟨"key", Value.StringValue "value"⟩,
                   ⟨"span.id", Value.StringValue "00f067aa0ba902b7"⟩,
                   ⟨"trace.id", Value.StringValue "4bf92f3577b34da6a3ce929d0e0e4736"⟩,
                   ⟨"trace.flags", Value.StringValue "01"⟩] })], 1)) := by
  obtain ⟨forwarded, hcount, hrec, _⟩ :=
    Handle_calls_sink_exactly_once SemConv sampleContext sampleRecord
  have e := hrec none []
  have e2 : forwarded = { sampleRecord with
      attrs :=
        [⟨"key", Value.StringValue "value"⟩,
         ⟨"span.id", Value.StringValue "00f067aa0ba902b7"⟩,
         ⟨"trace.id", Value.StringValue "4bf92f3577b34da6a3ce929d0e0e4736"⟩,
         ⟨"trace.flags", Value.StringValue "01"⟩] } := by
    have e3 : (none, [(sampleContext, _)]) = (none, [] ++ [(sampleContext, forwarded)]) := e
    simp only [List.nil_append, Prod.mk.injEq, List.cons.injEq, and_true, true_and] at e3
    exact e3.symm
  rw [hcount _ (recordingHandler (some "disk full")) [] 0, e2]
  rfl

/-! ## Derived handlers and nesting -/

/-- C12: the decorator has `Handle` of its own and takes `Enabled`, `WithAttrs`
and `WithGroup` from the embedded sink.  So the handler `WithAttrs` or
`WithGroup` gives on a decorator is the one the sink gives, not a decorator:
its `Handle` is the sink-derived handler's `Handle` on the record as it came,
with no trace attribute added, whatever the context. -/
theorem derived_handlers_are_not_decorated {σ : Type} (h : Handler σ) (c : namingType)
    (as : List Attr) (g : String) :
    (NewOtelLoggerMiddleware h c).WithAttrs as = h.WithAttrs as
    ∧ (NewOtelLoggerMiddleware h c).WithGroup g = h.WithGroup g
    ∧ (NewOtelLoggerMiddleware h c).Enabled = h.Enabled
    ∧ (∀ (ctx : Context) (record : Record) (s : σ),
        ((NewOtelLoggerMiddleware h c).WithAttrs as).Handle ctx record s
          = (h.WithAttrs as).Handle ctx record s)
    ∧ (∀ (ctx : Context) (record : Record) (s : σ),
        ((NewOtelLoggerMiddleware h c).WithGroup g).Handle ctx record s
          = (h.WithGroup g).Handle ctx record s) := by
  have ea : (NewOtelLoggerMiddleware h c).WithAttrs as = h.WithAttrs as := rfl
  have eg : (NewOtelLoggerMiddleware h c).WithGroup g = h.WithGroup g := rfl
  exact ⟨ea, eg, rfl, fun ctx record s => by rw [ea], fun ctx record s => by rw [eg]⟩

/-- C12 at the recording sink under the sample context, which is valid: through
the handler derived with `WithAttrs`, and through the one derived with
`WithGroup`, the sink is handed the sample record with its one attribute, while
through the decorator itself it is handed four. -/
theorem derived_handlers_are_not_decorated_witness :
    (((NewOtelLoggerMiddleware (recordingHandler none) SemConv).WithAttrs
          [⟨"service", Value.StringValue "api"⟩]).Handle sampleContext sampleRecord [])
        = (none, [(sampleContext, sampleRecord)])
    ∧ (((NewOtelLoggerMiddleware (recordingHandler none) SemConv).WithGroup
          "request").Handle sampleContext sampleRecord [])
        = (none, [(sampleContext, sampleRecord)])
    ∧ ((NewOtelLoggerMiddleware (recordingHandler none) SemConv).Handle
          sampleContext sampleRecord []).2.map (fun call => call.2.NumAttrs) = [4] :=
  ⟨(derived_handlers_are_not_decorated (recordingHandler none) SemConv
      [⟨"service", Value.StringValue "api"⟩] "request").2.2.2.1 sampleContext sampleRecord [],
   (derived_handlers_are_not_decorated (recordingHandler none) SemConv
      [⟨"service", Value.StringValue "api"⟩] "request").2.2.2.2 sampleContext sampleRecord [],
   rfl⟩

/-- C13: decorators compose, the outer one first.  For every sink, every two of
the four conventions, a valid context and every record, `Handle` on the
decorator with `c1` around the decorator with `c2` around the sink is the
sink's `Handle` on the record whose attributes are the ones it had, then the
three pairs of `c1`, then the three pairs of `c2`; the result is the sink's. -/
theorem decorators_compose_outermost_first {σ : Type} (h : Handler σ) (c1 c2 : namingType)
    (hc1 : c1 = SemConv ∨ c1 = SnakeCase ∨ c1 = CamelCase ∨ c1 = PascalCase)
    (hc2 : c2 = SemConv ∨ c2 = SnakeCase ∨ c2 = CamelCase ∨ c2 = PascalCase)
    (ctx : Context) (record : Record) (s : σ)
    (hv : (SpanFromContext ctx).SpanContext.IsValid = true)
    (hs : (SpanFromContext ctx).SpanContext.HasSpanID = true)
    (ht : (SpanFromContext ctx).SpanContext.HasTraceID = true) :
    (NewOtelLoggerMiddleware (NewOtelLoggerMiddleware h c2) c1).Handle ctx record s
        = h.Handle ctx
            { record with
              attrs := record.attrs
                ++ traceAttrs c1 (SpanFromContext ctx).SpanContext.SpanID
                    (SpanFromContext ctx).SpanContext.TraceID
                    (SpanFromContext ctx).SpanContext.TraceFlags
                ++ traceAttrs c2 (SpanFromContext ctx).SpanContext.SpanID
                    (SpanFromContext ctx).SpanContext.TraceID
                    (SpanFromContext ctx).SpanContext.TraceFlags } s
    ∧ (traceAttrs c1 (SpanFromContext ctx).SpanContext.SpanID
          (SpanFromContext ctx).SpanContext.TraceID
          (SpanFromContext ctx).SpanContext.TraceFlags).length = 3
    ∧ (traceAttrs c2 (SpanFromContext ctx).SpanContext.SpanID
          (SpanFromContext ctx).SpanContext.TraceID
          (SpanFromContext ctx).SpanContext.TraceFlags).length = 3 := by
  refine ⟨?_, traceAttrs_length_of_convention c1 hc1 _ _ _,
    traceAttrs_length_of_convention c2 hc2 _ _ _⟩
  rw [Handle_of_valid (NewOtelLoggerMiddleware h c2) c1 ctx record hv hs ht,
    Handle_of_valid h c2 ctx _ hv hs ht]

/-- C13 at the sample context and record: snake case around Pascal case gives
the snake-case pairs before the Pascal-case pairs, and the semantic convention
around itself gives the same three keys twice; the failure of the sink comes
back. -/
theorem decorators_compose_outermost_first_witness :
    ((NewOtelLoggerMiddleware (NewOtelLoggerMiddleware (recordingHandler none) PascalCase)
          SnakeCase).Handle sampleContext sampleRecord []).2.map
        (fun call => call.2.attrs.map Attr.Key)
      = [["key", "span_id", "trace_id", "trace_flags", "SpanId", "TraceId", "TraceFlags"]]
    ∧ (NewOtelLoggerMiddleware
          (NewOtelLoggerMiddleware (recordingHandler (some "disk full")) SemConv)
          SemConv).Handle sampleContext sampleRecord []
      = (some "disk full",
          [(sampleContext,
            { sampleRecord with
              attrs :=
                [⟨"key", Value.StringValue "value"⟩,
                 ⟨"span.id", Value.StringValue "00f067aa0ba902b7"⟩,
                 ⟨"trace.id", Value.StringValue "4bf92f3577b34da6a3ce929d0e0e4736"⟩,
                 ⟨"trace.flags", Value.StringValue "01"⟩,
                 ⟨"span.id", Value.StringValue "00f067aa0ba902b7"⟩,
                 ⟨"trace.id", Value.StringValue "4bf92f3577b34da6a3ce929d0e0e4736"⟩,
                 ⟨"trace.flags", Value.StringValue "01"⟩] })]) :=
  ⟨congrArg (fun r => r.2.map (fun call => call.2.attrs.map Attr.Key))
      (decorators_compose_outermost_first (recordingHandler none) SnakeCase PascalCase
        (Or.inr (Or.inl rfl)) (Or.inr (Or.inr (Or.inr rfl)))
        sampleContext sampleRecord [] rfl rfl rfl).1,
   (decorators_compose_outermost_first (recordingHandler (some "disk full")) SemConv SemConv
      (Or.inl rfl) (Or.inl rfl) sampleContext sampleRecord [] rfl rfl rfl).1⟩

/-! ## The three-part test against `IsValid()` alone -/

/-- The no-op span agrees with the tracing library's definition of validity. -/
theorem noopSpanInstance_validityAsDefined :
    noopSpanInstance.SpanContext.validityAsDefined = true := rfl

/-- Under the tracing library's definition of validity the two further tests
add nothing to `IsValid()`. -/
theorem test_eq_IsValid_of_validityAsDefined (sc : SpanContext)
    (hsc : sc.validityAsDefined = true) :
    (sc.IsValid && sc.HasSpanID && sc.HasTraceID) = sc.IsValid := by
  cases sc with
  | mk v hs ht S T F =>
    cases v <;> cases hs <;> cases ht <;> simp_all [SpanContext.validityAsDefined]

/-- The definition of validity is what makes the tests agree: a span context
that reported itself valid without a span id would be enriched by the test on
`IsValid()` alone and not by the three-part test. -/
theorem HandleIsValidOnly_differs_without_definition :
    (⟨true, false, true, "0000000000000000", "4bf92f3577b34da6a3ce929d0e0e4736", "01"⟩ :
        SpanContext).validityAsDefined = false
    ∧ otelLoggerMiddleware.Handle ⟨recordingHandler none, SemConv⟩
          { currentSpan := some ⟨⟨true, false, true, "0000000000000000",
              "4bf92f3577b34da6a3ce929d0e0e4736", "01"⟩⟩, rest := 0 } sampleRecord []
        ≠ otelLoggerMiddleware.HandleIsValidOnly ⟨recordingHandler none, SemConv⟩
          { currentSpan := some ⟨⟨true, false, true, "0000000000000000",
              "4bf92f3577b34da6a3ce929d0e0e4736", "01"⟩⟩, rest := 0 } sampleRecord [] := by
  refine ⟨rfl, ?_⟩
  decide

/-- C14: under the tracing library's definition of validity the three-part
test of `Handle` is the test `IsValid()` alone.  For every context whose span,
if it has one, has a span context that follows the definition, every sink,
convention value, record and state: the conjunction of the three tests equals
`IsValid()`; `Handle` and its variant that tests `IsValid()` alone give the
same result and the same effect, so they forward the same record; and the span
context is not valid while lacking a span id or a trace id. -/
theorem three_part_test_is_redundant {σ : Type} (h : Handler σ) (c : namingType)
    (ctx : Context) (record : Record) (s : σ)
    (hlib : ∀ span : Span, ctx.currentSpan = some span →
      span.SpanContext.validityAsDefined = true) :
    ((SpanFromContext ctx).SpanContext.IsValid && (SpanFromContext ctx).SpanContext.HasSpanID
        && (SpanFromContext ctx).SpanContext.HasTraceID)
      = (SpanFromContext ctx).SpanContext.IsValid
    ∧ (NewOtelLoggerMiddleware h c).Handle ctx record s
      = otelLoggerMiddleware.HandleIsValidOnly ⟨h, c⟩ ctx record s
    ∧ ¬ ((SpanFromContext ctx).SpanContext.IsValid = true
          ∧ ((SpanFromContext ctx).SpanContext.HasSpanID = false
            ∨ (SpanFromContext ctx).SpanContext.HasTraceID = false)) := by
  have hsc : (SpanFromContext ctx).SpanContext.validityAsDefined = true := by
    cases hcur : ctx.currentSpan with
    | none =>
      have e : SpanFromContext ctx = noopSpanInstance := by simp [SpanFromContext, hcur]
      rw [e]
      exact noopSpanInstance_validityAsDefined
    | some span =>
      have e : SpanFromContext ctx = span := by simp [SpanFromContext, hcur]
      rw [e]
      exact hlib span hcur
  have htest := test_eq_IsValid_of_validityAsDefined _ hsc
  refine ⟨htest, ?_, ?_⟩
  · show otelLoggerMiddleware.Handle ⟨h, c⟩ ctx record s = _
    unfold otelLoggerMiddleware.Handle otelLoggerMiddleware.HandleIsValidOnly
    simp only [htest]
  · rintro ⟨hv, hmiss⟩
    rw [hv] at htest
    rcases hmiss with e | e <;> simp [e] at htest

/-- C14 at the sample context, whose span context follows the definition, and
at a context without a span: the two forms of `Handle` hand the recording sink
the same. -/
theorem three_part_test_is_redundant_witness :
    sampleSpanContext.validityAsDefined = true
    ∧ (NewOtelLoggerMiddleware (recordingHandler none) CamelCase).Handle
          sampleContext sampleRecord []
        = otelLoggerMiddleware.HandleIsValidOnly ⟨recordingHandler none, CamelCase⟩
            sampleContext sampleRecord []
    ∧ (NewOtelLoggerMiddleware (recordingHandler none) CamelCase).Handle
          backgroundContext sampleRecord []
        = otelLoggerMiddleware.HandleIsValidOnly ⟨recordingHandler none, CamelCase⟩
            backgroundContext sampleRecord []
    ∧ (otelLoggerMiddleware.HandleIsValidOnly ⟨recordingHandler none, CamelCase⟩
          sampleContext sampleRecord []).2.map (fun call => call.2.attrs.map Attr.Key)
        = [["key", "spanId", "traceId", "traceFlags"]] :=
  ⟨rfl,
   (three_part_test_is_redundant (recordingHandler none) CamelCase sampleContext sampleRecord []
      (fun span e => by
        have e2 : span = ⟨sampleSpanContext⟩ := (Option.some.inj e).symm
        rw [e2]
        rfl)).2.1,
   (three_part_test_is_redundant (recordingHandler none) CamelCase backgroundContext
      sampleRecord [] (fun span e => by cases e)).2.1,
   rfl⟩

end OtelLogger
